import Mathlib

/-!
# Verification of the Streaming Bridge and Context Window Manager

Shallow embedding of `src/backend/chat_service.py`, `src/backend/context_manager.py`,
`src/backend/models.py` and `src/backend/error_handler.py` of the
strands-multi-agent-system repository, together with proofs of the spec's claims.

Conventions:
* Wall-clock instants (`time.time()` values, in seconds) are rationals.
* Python `dict` metadata is embedded as a structure holding exactly the keys
  the code reads (`is_summary`, `toolCalls`).
* Fallible collaborator calls (Supabase persistence, the blocking agent call)
  are passed in as `Except` values describing their outcome.
* Machine floats appear in one place (`estimated_tokens * 1.2` followed by
  `int(...)`); it is embedded as the exact rational computation
  `(n * 6) / 5` in `Nat` (floor of `n * 1.2` for the magnitudes involved).
-/

namespace StrandsBridge

/-- Wall-clock time in seconds, as produced by `time.time()`. -/
abbrev Time := Rat

/-! ## Data model (`src/backend/models.py`) -/

/-- `role: Literal["user", "assistant"]` on `Message`. -/
inductive Role where
  | user
  | assistant
deriving DecidableEq, Repr

/-- One entry of an assistant message's `metadata["toolCalls"]` list;
the code reads it with `tool_call.get('name', 'unknown')`. -/
structure ToolCallEntry where
  name : Option String
deriving DecidableEq, Repr

/-- The message `metadata` dict, embedded as the keys the code reads:
`is_summary` (set by `_summarize_context`) and `toolCalls`
(read by `_summarize_context`).  A `metadata` of `none` covers both a Python
`None` and an empty dict (both falsy, and neither contains `"toolCalls"`). -/
structure MessageMetadata where
  is_summary : Bool := false
  toolCalls : Option (List ToolCallEntry) := none
deriving DecidableEq, Repr

/-- `class Message(BaseModel)` from `src/backend/models.py`. -/
structure Message where
  id : String
  content : String
  role : Role
  timestamp : Time
  agent_type : Option String := none
  metadata : Option MessageMetadata := none
deriving DecidableEq, Repr

/-- `class ChatRequest(BaseModel)` from `src/backend/models.py`. -/
structure ChatRequest where
  message : String
  conversation_id : String
  user_id : String
  history : List Message := []
deriving DecidableEq, Repr

/-- `class StreamChunk(BaseModel)` from `src/backend/models.py`.  The pydantic
model declares `type: Literal["token", "tool_call", "complete", "error"]` and
fields `content`, `tool_call`, `error`, `agent_type`; there is no `tool_name`
field.  The `type` field is kept as a `String` here so that construction-time
validation of the `Literal` can be embedded (see `mkStreamChunk`). -/
structure StreamChunk where
  type : String
  content : Option String := none
  tool_call : Option String := none
  error : Option String := none
  agent_type : Option String := none
deriving DecidableEq, Repr

/-- The admissible values of `StreamChunk.type`, exactly the
`Literal["token", "tool_call", "complete", "error"]` of `models.py` line 51. -/
def streamChunkTypeLiteral : List String := ["token", "tool_call", "complete", "error"]

/-- The message of the pydantic `ValidationError` raised when a `StreamChunk`
is constructed with a `type` outside the `Literal`.  Only the presence of the
word "validation" matters downstream (for `translate_error_to_user_message`). -/
def streamChunkValidationMsg : String :=
  "1 validation error for StreamChunk: type must be token, tool_call, complete or error"

/-- pydantic construction of a `StreamChunk`: keyword arguments not declared on
the model (such as `tool_name=`) are dropped (`extra` defaults to ignore), and
the `type` value is validated against the `Literal`; an inadmissible value
raises `ValidationError`. -/
def mkStreamChunk (c : StreamChunk) : Except String StreamChunk :=
  if streamChunkTypeLiteral.contains c.type then .ok c else .error streamChunkValidationMsg

/-! ## Error translation (`src/backend/error_handler.py`) -/

/-- Python's substring containment `pat in s`. -/
def strContains (s pat : String) : Bool := decide (pat.toList <:+: s.toList)

/-- `translate_error_to_user_message` from `src/backend/error_handler.py`. -/
def translate_error_to_user_message (err : String) : String :=
  let e := err.toLower
  if strContains e "connection" || strContains e "timeout" then
    "Unable to connect to the service. Please check your internet connection and try again."
  else if strContains e "auth" || strContains e "unauthorized" || strContains e "forbidden" then
    "Authentication failed. Please log in again."
  else if strContains e "rate limit" || strContains e "too many requests" then
    "Too many requests. Please wait a moment and try again."
  else if strContains e "bedrock" || strContains e "model" then
    "The AI service is temporarily unavailable. Please try again in a moment."
  else if strContains e "token" && strContains e "limit" then
    "Your message is too long. Please try a shorter message."
  else if strContains e "supabase" || strContains e "database" then
    "Unable to access your data. Please try again."
  else if strContains e "validation" || strContains e "invalid" then
    "Invalid input. Please check your message and try again."
  else
    "An unexpected error occurred. Please try again."

/-! ## String joining helpers

`"".join(buffer)` and `"\n".join(parts)` from the Python source.
-/

/-- `"".join(l)`: concatenation of a list of strings in order. -/
def concatAll : List String → String
  | [] => ""
  | s :: rest => s ++ concatAll rest

/-- `sep.join(l)` for a separator `sep`. -/
def joinWith (sep : String) : List String → String
  | [] => ""
  | [s] => s
  | s :: rest => s ++ sep ++ joinWith sep rest

/-! ## Context Window Manager (`src/backend/context_manager.py`) -/

/-- `ContextManager.CHARS_PER_TOKEN`. -/
def CHARS_PER_TOKEN : Nat := 4

/-- `ContextManager.PRESERVE_RECENT_MESSAGES`. -/
def PRESERVE_RECENT_MESSAGES : Nat := 10

/-- The token estimate of `_exceeds_token_limit` (lines 183-188):
`estimated_tokens = total_chars // CHARS_PER_TOKEN` followed by
`estimated_tokens = int(estimated_tokens * 1.2)`.  The float multiplication
by `1.2` followed by `int` truncation is embedded as the exact
`(n * 6) / 5` in `Nat`. -/
def estimated_tokens (msgs : List Message) : Nat :=
  ((msgs.map fun m => m.content.length).sum / CHARS_PER_TOKEN) * 6 / 5

/-- `ContextManager._exceeds_token_limit` (lines 170-197).  The token limit is
`TOKEN_LIMITS.get(self.model_id, 200000)`, passed in here as `limit`. -/
def exceeds_token_limit (limit : Nat) (msgs : List Message) : Bool :=
  if msgs = [] then false
  else decide (estimated_tokens msgs > limit)

/-- The per-user-message entry appended to `user_requests` in
`_summarize_context` (lines 230-235): the content, truncated to 200
characters plus `"..."` when it is 200 characters or longer. -/
def truncatedRequest (content : String) : String :=
  if content.length < 200 then content else content.take 200 ++ "..."

/-- `user_requests` collected from the old messages (lines 229-235). -/
def userRequests (old : List Message) : List String :=
  old.filterMap fun m => if m.role = .user then some (truncatedRequest m.content) else none

/-- `agent_actions` collected from the old messages (lines 236-242): for each
assistant message whose metadata contains `"toolCalls"`, one
`"<name> action"` entry per tool call, `name` defaulting to `"unknown"`. -/
def agentActions (old : List Message) : List String :=
  old.flatMap fun m =>
    if m.role = .assistant then
      match m.metadata with
      | some md =>
        match md.toolCalls with
        | some tcs => tcs.map fun tc => tc.name.getD "unknown" ++ " action"
        | none => []
      | none => []
    else []

/-- The summary content built in `_summarize_context` (lines 222-250).
`', '.join(set(agent_actions[:5]))` iterates a Python `set`, whose order is
unspecified; it is embedded as first-occurrence deduplication
(`List.eraseDups`). -/
def summaryContent (old : List Message) : String :=
  let reqs := userRequests old
  let acts := agentActions old
  joinWith "\n"
    (["Summary of earlier conversation:"]
      ++ (if reqs ≠ [] then ["User asked about: " ++ joinWith ", " (reqs.take 5)] else [])
      ++ (if acts ≠ [] then ["Actions taken: " ++ joinWith ", " (acts.take 5).eraseDups] else []))

/-- The synthetic summary `Message` built in `_summarize_context`
(lines 253-259).  The `datetime.now()` fallback timestamp only applies when
`old_messages` is empty, which cannot happen at the call site; it is embedded
as `0`. -/
def summaryMessage (old : List Message) : Message :=
  { id := "summary"
    content := summaryContent old
    role := .assistant
    timestamp := (old.getLast?.map fun m => m.timestamp).getD 0
    metadata := some { is_summary := true } }

/-- `ContextManager._summarize_context` (lines 199-274): keep the input when it
has at most `PRESERVE_RECENT_MESSAGES` entries, otherwise replace everything
but the last `PRESERVE_RECENT_MESSAGES` messages by one summary message.
(The `except` fallback of lines 271-274 is unreachable: the body raises no
exception.) -/
def summarize_context (msgs : List Message) : List Message :=
  if msgs.length ≤ PRESERVE_RECENT_MESSAGES then msgs
  else
    let old := msgs.take (msgs.length - PRESERVE_RECENT_MESSAGES)
    let recent := msgs.drop (msgs.length - PRESERVE_RECENT_MESSAGES)
    summaryMessage old :: recent

/-- `ContextManager._get_user_profile` (lines 152-168): currently a fixed
profile string for the given user. -/
def get_user_profile (user_id : String) : Option String :=
  some ("User ID: " ++ user_id ++ "\nBusiness Type: Painting Contractor")

/-- `ContextManager._load_conversation_history` (lines 111-150): the
persistence collaborator's outcome is `loadResult`; any failure is caught and
an empty history returned. -/
def load_conversation_history (loadResult : Except String (List Message)) : List Message :=
  match loadResult with
  | .ok msgs => msgs
  | .error _ => []

/-- The history `build_context` works on (lines 72-78): the request's history,
or — when that is empty and a conversation id is present — the history loaded
from the persistence collaborator. -/
def effectiveHistory (loadResult : Except String (List Message)) (req : ChatRequest) :
    List Message :=
  if req.history = [] ∧ req.conversation_id ≠ "" then load_conversation_history loadResult
  else req.history

/-- The history after the summarization decision of `build_context`
(lines 80-83). -/
def contextHistory (limit : Nat) (loadResult : Except String (List Message))
    (req : ChatRequest) : List Message :=
  let h := effectiveHistory loadResult req
  if exceeds_token_limit limit h then summarize_context h else h

/-- The display label of a role (line 98):
`role = "User" if msg.role == "user" else "Assistant"`. -/
def roleLabel : Role → String
  | .user => "User"
  | .assistant => "Assistant"

/-- The formatting step of `build_context` (lines 85-101): optional user
profile part, then `"Previous conversation:"` and one `"<Role>: <content>"`
line per message, joined with newlines. -/
def renderContext (includeUserProfile : Bool) (user_id : String)
    (history : List Message) : String :=
  let profileParts : List String :=
    if includeUserProfile then
      match get_user_profile user_id with
      | some p => if p = "" then [] else [p]
      | none => []
    else []
  let historyParts : List String :=
    if history = [] then []
    else "Previous conversation:" :: history.map fun m => roleLabel m.role ++ ": " ++ m.content
  joinWith "\n" (profileParts ++ historyParts)

/-- `ContextManager.build_context` (lines 54-109).  All fallible collaborator
calls inside the body are caught where the source catches them
(`_load_conversation_history` returns `[]`, `_get_user_profile` returns
`none`, `_summarize_context` returns a fallback), so the outer handler of
lines 106-109 (returning `""`) is only reachable by a failure escaping those
inner handlers. -/
def build_context (limit : Nat) (loadResult : Except String (List Message))
    (req : ChatRequest) (includeUserProfile : Bool) : String :=
  renderContext includeUserProfile req.user_id (contextHistory limit loadResult req)

/-- `ContextManager.save_message` (lines 276-311): forwards to the
conversation service and returns `none` when the service raises. -/
def save_message (svcResult : Except String Message) : Option Message :=
  match svcResult with
  | .ok m => some m
  | .error _ => none

/-- The parameter names accepted by `ContextManager.save_message`
(lines 276-283). -/
def saveMessageParams : List String :=
  ["conversation_id", "content", "role", "agent_type", "metadata"]

/-- The keyword arguments `stream_chat_response` passes to
`ContextManager.save_message` at `src/backend/chat_service.py` lines 149-155
(and again at lines 178-185). -/
def streamChatSaveMessageKeywords : List String :=
  ["conversation_id", "content", "role", "user_id", "jwt_token"]

/-- The keywords of that call with no matching parameter; Python raises
`TypeError` at the call when this list is nonempty, before the body of
`save_message` (and its `try`) can run. -/
def saveMessageUnexpectedKeywords : List String :=
  streamChatSaveMessageKeywords.filter fun k => !(saveMessageParams.contains k)

/-! ## Streaming bridge (`src/backend/chat_service.py`)

### Events produced by the worker side

`streaming_callback` (lines 256-269) pushes `('token', data, t)` and
`('tool_start', {'name': name}, t)` tuples onto the thread-safe queue, and
`run_agent` (lines 271-283) pushes the terminal `('done', None, t)` or
`('error', str(e), t)`.
-/

/-- One event on the `event_queue`.  The carried `Time` is the `time.time()`
recorded when the producer pushed the event. -/
inductive WorkerEvent where
  | token (data : String) (t : Time)
  | toolStart (name : String) (t : Time)
  | error (msg : String) (t : Time)
  | done (t : Time)
deriving DecidableEq, Repr

/-- Whether an event is a terminal (`done`/`error`) event. -/
def WorkerEvent.isTerminal : WorkerEvent → Bool
  | .error _ _ => true
  | .done _ => true
  | _ => false

/-- One invocation of `streaming_callback` (lines 256-269): the `data` kwarg
(`""` when absent) and the `current_tool_use` name (`""` when absent or
falsy), with the `time.time()` at the invocation. -/
structure CallbackInvocation where
  data : String
  toolUseName : String
  t : Time
deriving DecidableEq, Repr

/-- The events one `streaming_callback` invocation pushes: a `token` event when
`data` is truthy, then a `tool_start` event when the current tool use carries
a truthy name. -/
def callbackEvents (c : CallbackInvocation) : List WorkerEvent :=
  (if c.data ≠ "" then [.token c.data c.t] else [])
    ++ (if c.toolUseName ≠ "" then [.toolStart c.toolUseName c.t] else [])

/-- `run_agent` (lines 271-283): the blocking agent call drives
`streaming_callback` zero or more times (`calls`) and then either returns
normally (`result = .ok ()`, pushing one `done` event) or raises
(`result = .error msg`, pushing one `error` event carrying `str(e)`).
`tEnd` is the `time.time()` of the terminal push. -/
def run_agent_events (calls : List CallbackInvocation) (result : Except String Unit)
    (tEnd : Time) : List WorkerEvent :=
  calls.flatMap callbackEvents
    ++ [match result with
        | .ok _ => .done tEnd
        | .error msg => .error msg tEnd]

/-! ### The stream driver loop (`_stream_from_agent`, lines 285-393)

Each loop iteration either receives one event from the queue or times out
(`queue.Empty`).  A `DriverObs` records which, together with the `time.time()`
the handling code reads in that iteration.
-/

/-- One observation of the driver loop: a received event or a poll timeout,
with the driver-side clock reading of that iteration. -/
inductive DriverObs where
  | ev (e : WorkerEvent) (now : Time)
  | timeout (now : Time)
deriving DecidableEq, Repr

/-- `TOKEN_BATCH_WINDOW_MS` (line 33). -/
def TOKEN_BATCH_WINDOW_MS : Rat := 10

/-- `TOKEN_BATCH_MAX_SIZE` (line 34). -/
def TOKEN_BATCH_MAX_SIZE : Nat := 5

/-- The mutable loop state of `_stream_from_agent`: the token batching buffer,
`last_token_time`, and the `seen_tools` set (kept as a list of first
occurrences). -/
structure DriverState where
  tokenBuffer : List String
  lastTokenTime : Time
  seenTools : List String
deriving DecidableEq, Repr

/-- The state at loop entry (lines 291-295). -/
def initialDriverState : DriverState := ⟨[], 0, []⟩

/-- How `_stream_from_agent` ends: `finished` for the normal `break` on a
`done` event, `raised msg` for an exception propagating out of the generator,
and `incomplete` when the recorded observations end before the loop does. -/
inductive DriverOutcome where
  | finished
  | raised (msg : String)
  | incomplete
deriving DecidableEq, Repr

/-- Result of one loop iteration: continue with a new state, or leave the
loop (normally or exceptionally). -/
inductive StepResult where
  | next (s : DriverState)
  | stop (outcome : DriverOutcome)
deriving DecidableEq, Repr

/-- The token `StreamChunk` emitted when the batching buffer is flushed
(lines 314-322 and the three identical flush sites):
`StreamChunk(type="token", content="".join(buffer), agent_type=SUPERVISOR)`. -/
def tokenFlushChunk (buf : List String) : StreamChunk :=
  { type := "token", content := some (concatAll buf), agent_type := some "supervisor" }

/-- The `StreamChunk` construction attempted for a fresh tool name
(lines 339-343): `StreamChunk(type="tool_start", tool_name=..., agent_type=...)`.
pydantic drops the undeclared `tool_name=` keyword, so only `type` and
`agent_type` reach the model; validation of the `type` Literal is performed by
`mkStreamChunk` at the construction site. -/
def toolStartChunkAttempt : StreamChunk :=
  { type := "tool_start", agent_type := some "supervisor" }

/-- One iteration of the `while` loop of `_stream_from_agent`
(lines 298-380), for a given observation. -/
def driverStep (s : DriverState) (o : DriverObs) : List StreamChunk × StepResult :=
  match o with
  | .ev (.token data t) now =>
    -- lines 303-322
    let buf := s.tokenBuffer ++ [data]
    let shouldFlush : Bool :=
      decide (buf.length ≥ TOKEN_BATCH_MAX_SIZE)
        || decide ((now - t) * 1000 > TOKEN_BATCH_WINDOW_MS)
    if shouldFlush ∧ buf ≠ [] then
      match mkStreamChunk (tokenFlushChunk buf) with
      | .ok c => ([c], .next ⟨[], t, s.seenTools⟩)
      | .error m => ([], .stop (.raised m))
    else ([], .next ⟨buf, t, s.seenTools⟩)
  | .ev (.toolStart name _t) _now =>
    -- lines 324-343: flush pending tokens, then emit tool_start once per name
    let flushed : List StreamChunk :=
      if s.tokenBuffer ≠ [] then [tokenFlushChunk s.tokenBuffer] else []
    if name ≠ "" ∧ name ∉ s.seenTools then
      match mkStreamChunk toolStartChunkAttempt with
      | .ok c => (flushed ++ [c], .next ⟨[], s.lastTokenTime, s.seenTools ++ [name]⟩)
      | .error m => (flushed, .stop (.raised m))
    else (flushed, .next ⟨[], s.lastTokenTime, s.seenTools⟩)
  | .ev (.error msg _t) _now =>
    -- lines 344-354: flush pending tokens, then `raise Exception(event_data)`
    let flushed : List StreamChunk :=
      if s.tokenBuffer ≠ [] then [tokenFlushChunk s.tokenBuffer] else []
    (flushed, .stop (.raised msg))
  | .ev (.done _t) _now =>
    -- lines 355-365: flush remaining tokens, then `break`
    let flushed : List StreamChunk :=
      if s.tokenBuffer ≠ [] then [tokenFlushChunk s.tokenBuffer] else []
    (flushed, .stop .finished)
  | .timeout now =>
    -- lines 367-380: flush on timeout if pending tokens aged past the window
    if s.tokenBuffer ≠ [] ∧ (now - s.lastTokenTime) * 1000 > TOKEN_BATCH_WINDOW_MS then
      ([tokenFlushChunk s.tokenBuffer], .next ⟨[], s.lastTokenTime, s.seenTools⟩)
    else ([], .next s)

/-- The driver loop over a sequence of observations, collecting the emitted
chunks.  An exhausted observation list means the loop is still running
(`incomplete`); this never happens for worker-produced traces, which always
contain a terminal event (`run_agent_events`). -/
def driverRun (s : DriverState) : List DriverObs → List StreamChunk × DriverOutcome
  | [] => ([], .incomplete)
  | o :: rest =>
    match driverStep s o with
    | (out, .next s') =>
      let (out', oc) := driverRun s' rest
      (out ++ out', oc)
    | (out, .stop oc) => (out, oc)

/-- `_stream_from_agent` (lines 208-393) as a function of the observation
sequence of its loop: the `StreamChunk`s it yields and how it ends.  The
post-loop `await agent_task; if agent_error: raise agent_error`
(lines 382-386) is the identity here: the loop only breaks normally on a
`done` event, and `run_agent` pushes `done` exactly when it did not raise. -/
def stream_from_agent (obs : List DriverObs) : List StreamChunk × DriverOutcome :=
  driverRun initialDriverState obs

/-- The `StreamChunk(type="complete", agent_type=SUPERVISOR)` of
`stream_chat_response` lines 188-192. -/
def completeChunk : StreamChunk :=
  { type := "complete", agent_type := some "supervisor" }

/-- The `StreamChunk(type="error", error=translate_error_to_user_message(e))`
of `stream_chat_response` lines 199-205. -/
def errorChunk (msg : String) : StreamChunk :=
  { type := "error", error := some (translate_error_to_user_message msg) }

/-- Whether the collected `full_response` of `stream_chat_response`
(lines 163-177) is nonempty: some token chunk with truthy content was
streamed. -/
def hasResponseContent (chunks : List StreamChunk) : Bool :=
  chunks.any fun c => c.type == "token" && c.content.getD "" != ""

/-- `stream_chat_response` (lines 121-205) at the wire-chunk level.
`preludeResult` abstracts the three awaited calls before streaming starts
(`_ensure_conversation_exists`, the user-message `save_message`, and
`build_context`); `assistantSaveResult` abstracts the assistant-message
`save_message` call of lines 177-185, which only runs when `full_response` is
nonempty.  Any exception in the body is caught by lines 196-205, which emit
one `error` chunk.  (Under the shipped code both `save_message` calls raise
`TypeError` — see `saveMessageUnexpectedKeywords` — realizing the `.error`
cases; both outcomes are covered here.) -/
def stream_chat_response (preludeResult : Except String Unit)
    (assistantSaveResult : Except String Unit) (obs : List DriverObs) :
    List StreamChunk :=
  match preludeResult with
  | .error e => [errorChunk e]
  | .ok _ =>
    match stream_from_agent obs with
    | (chunks, .finished) =>
      if hasResponseContent chunks then
        match assistantSaveResult with
        | .ok _ => chunks ++ [completeChunk]
        | .error e => chunks ++ [errorChunk e]
      else chunks ++ [completeChunk]
    | (chunks, .raised m) => chunks ++ [errorChunk m]
    | (chunks, .incomplete) => chunks

/-- A chunk that terminates the wire stream: `complete` or `error`. -/
def StreamChunk.isTerminal (c : StreamChunk) : Bool :=
  c.type == "complete" || c.type == "error"

/-- Whether an observation sequence contains a terminal worker event. -/
def hasTerminalObs (obs : List DriverObs) : Bool :=
  obs.any fun o =>
    match o with
    | .ev e _ => e.isTerminal
    | .timeout _ => false

/-- The concatenated contents of the token chunks of a wire sequence. -/
def tokenConcat (chunks : List StreamChunk) : String :=
  concatAll (chunks.filterMap fun c => if c.type = "token" then c.content else none)

/-- The concatenated data of the token events of an observation sequence. -/
def fragConcat (obs : List DriverObs) : String :=
  concatAll (obs.filterMap fun o =>
    match o with
    | .ev (.token d _) _ => some d
    | _ => none)

/-- An observation on which the driver loop always continues: a token event or
a poll timeout. -/
def cleanObs (o : DriverObs) : Bool :=
  match o with
  | .ev (.token _ _) _ => true
  | .timeout _ => true
  | _ => false

/-- An observation on which the driver loop (started from `initialDriverState`
after only clean observations, so with `seen_tools` empty) leaves the loop:
a terminal event, or a tool-start event with a truthy name (whose wire chunk
construction raises, see `toolStartChunkAttempt`). -/
def boundaryStops (o : DriverObs) : Bool :=
  match o with
  | .ev (.error _ _) _ => true
  | .ev (.done _) _ => true
  | .ev (.toolStart name _) _ => name != ""
  | _ => false

/-! ### Concrete fixtures used by witness theorems -/

/-- A deterministic concrete message for tests: user/assistant alternating. -/
def mkTestMsg (i : Nat) : Message :=
  { id := toString i
    content := "m" ++ toString i
    role := if i % 2 = 0 then .user else .assistant
    timestamp := (i : Rat) }

/-- Twenty concrete conversation turns. -/
def twentyMsgs : List Message := (List.range 20).map mkTestMsg

/-- Five concrete conversation turns. -/
def fiveMsgs : List Message := (List.range 5).map mkTestMsg

/-- Seven concrete fast token fragments `(data, produced-at, processed-at)`. -/
def sevenFrags : List (String × Time × Time) :=
  [("a", 0, 0), ("b", 0, 0), ("c", 0, 0), ("d", 0, 0), ("e", 0, 0),
   ("f", 0, 0), ("g", 0, 0)]

/-- The terminal event `run_agent` pushes for a given call outcome:
`done` on normal return, `error` carrying `str(e)` on an exception. -/
def terminalEventOf (result : Except String Unit) (tEnd : Time) : WorkerEvent :=
  match result with
  | .ok _ => .done tEnd
  | .error msg => .error msg tEnd

/-- A concrete request carrying a five-turn history. -/
def chatReqFive : ChatRequest := ⟨"hi", "c1", "u1", fiveMsgs⟩

/-- A concrete request with no caller-supplied history. -/
def emptyHistReq : ChatRequest := ⟨"hello", "c1", "u1", []⟩

/-! ## Helper lemmas -/

@[simp]
theorem concatAll_nil : concatAll [] = "" := rfl

@[simp]
theorem concatAll_cons (s : String) (l : List String) :
    concatAll (s :: l) = s ++ concatAll l := rfl

@[simp]
theorem concatAll_singleton (s : String) : concatAll [s] = s := by
  simp [concatAll, String.append_empty]

theorem concatAll_append (a b : List String) :
    concatAll (a ++ b) = concatAll a ++ concatAll b := by
  induction a with
  | nil => simp [String.empty_append]
  | cons x xs ih => simp [concatAll, ih, String.append_assoc]

@[simp]
theorem mkStreamChunk_tokenFlush (buf : List String) :
    mkStreamChunk (tokenFlushChunk buf) = .ok (tokenFlushChunk buf) := rfl

@[simp]
theorem mkStreamChunk_toolStart :
    mkStreamChunk toolStartChunkAttempt = .error streamChunkValidationMsg := rfl

@[simp]
theorem tokenFlushChunk_type (buf : List String) :
    (tokenFlushChunk buf).type = "token" := rfl

@[simp]
theorem tokenConcat_nil : tokenConcat [] = "" := rfl

theorem tokenConcat_append (a b : List StreamChunk) :
    tokenConcat (a ++ b) = tokenConcat a ++ tokenConcat b := by
  simp [tokenConcat, List.filterMap_append, concatAll_append]

theorem fragConcat_nil : fragConcat [] = "" := rfl

/-! ### Step equations for the driver loop -/

theorem driverStep_token_flush (s : DriverState) (data : String) (t now : Time)
    (h : (s.tokenBuffer ++ [data]).length ≥ TOKEN_BATCH_MAX_SIZE ∨
      (now - t) * 1000 > TOKEN_BATCH_WINDOW_MS) :
    driverStep s (.ev (.token data t) now)
      = ([tokenFlushChunk (s.tokenBuffer ++ [data])], .next ⟨[], t, s.seenTools⟩) := by
  have hne : s.tokenBuffer ++ [data] ≠ [] := by simp
  rcases h with h | h
  · simp only [List.length_append, List.length_singleton] at h
    simp [driverStep, hne, mkStreamChunk, tokenFlushChunk, streamChunkTypeLiteral]
    intro hlt
    exact absurd h (by omega)
  · simp [driverStep, hne, h, mkStreamChunk, tokenFlushChunk, streamChunkTypeLiteral]

theorem driverStep_token_buffer (s : DriverState) (data : String) (t now : Time)
    (h5 : (s.tokenBuffer ++ [data]).length < TOKEN_BATCH_MAX_SIZE)
    (ht : ¬ (now - t) * 1000 > TOKEN_BATCH_WINDOW_MS) :
    driverStep s (.ev (.token data t) now)
      = ([], .next ⟨s.tokenBuffer ++ [data], t, s.seenTools⟩) := by
  simp [driverStep, ht]
  simpa using h5

theorem driverStep_toolStart_fresh (s : DriverState) (name : String) (t now : Time)
    (hn : name ≠ "") (hseen : name ∉ s.seenTools) :
    driverStep s (.ev (.toolStart name t) now)
      = ((if s.tokenBuffer ≠ [] then [tokenFlushChunk s.tokenBuffer] else []),
         .stop (.raised streamChunkValidationMsg)) := by
  simp [driverStep, hn, hseen, mkStreamChunk, toolStartChunkAttempt, streamChunkTypeLiteral]

theorem driverStep_error (s : DriverState) (msg : String) (t now : Time) :
    driverStep s (.ev (.error msg t) now)
      = ((if s.tokenBuffer ≠ [] then [tokenFlushChunk s.tokenBuffer] else []),
         .stop (.raised msg)) := rfl

theorem driverStep_done (s : DriverState) (t now : Time) :
    driverStep s (.ev (.done t) now)
      = ((if s.tokenBuffer ≠ [] then [tokenFlushChunk s.tokenBuffer] else []),
         .stop .finished) := rfl

theorem driverStep_timeout_flush (s : DriverState) (now : Time)
    (hne : s.tokenBuffer ≠ [])
    (ht : (now - s.lastTokenTime) * 1000 > TOKEN_BATCH_WINDOW_MS) :
    driverStep s (.timeout now)
      = ([tokenFlushChunk s.tokenBuffer], .next ⟨[], s.lastTokenTime, s.seenTools⟩) := by
  simp [driverStep, hne, ht]

theorem driverStep_timeout_skip (s : DriverState) (now : Time)
    (h : ¬ (s.tokenBuffer ≠ [] ∧ (now - s.lastTokenTime) * 1000 > TOKEN_BATCH_WINDOW_MS)) :
    driverStep s (.timeout now) = ([], .next s) := by
  simp only [driverStep, if_neg h]

theorem driverStep_toolStart_seen (s : DriverState) (name : String) (t now : Time)
    (h : ¬ (name ≠ "" ∧ name ∉ s.seenTools)) :
    driverStep s (.ev (.toolStart name t) now)
      = ((if s.tokenBuffer ≠ [] then [tokenFlushChunk s.tokenBuffer] else []),
         .next ⟨[], s.lastTokenTime, s.seenTools⟩) := by
  simp only [driverStep, if_neg h]

@[simp]
theorem driverRun_nil (s : DriverState) : driverRun s [] = ([], .incomplete) := rfl

theorem driverRun_cons_next {s : DriverState} {o : DriverObs} {out : List StreamChunk}
    {s' : DriverState} (rest : List DriverObs) (h : driverStep s o = (out, .next s')) :
    driverRun s (o :: rest) = (out ++ (driverRun s' rest).1, (driverRun s' rest).2) := by
  simp [driverRun, h]

theorem driverRun_cons_stop {s : DriverState} {o : DriverObs} {out : List StreamChunk}
    {oc : DriverOutcome} (rest : List DriverObs) (h : driverStep s o = (out, .stop oc)) :
    driverRun s (o :: rest) = (out, oc) := by
  simp [driverRun, h]

/-- Every chunk a single driver iteration emits is a token chunk: the only
non-token construction attempted (`tool_start`) fails pydantic validation. -/
theorem driverStep_chunks_token (s : DriverState) (o : DriverObs) :
    ∀ c ∈ (driverStep s o).1, c.type = "token" := by
  intro c hc
  cases o with
  | ev e now =>
    cases e with
    | token data t =>
      by_cases hf : (s.tokenBuffer ++ [data]).length ≥ TOKEN_BATCH_MAX_SIZE ∨
          (now - t) * 1000 > TOKEN_BATCH_WINDOW_MS
      · rw [driverStep_token_flush s data t now hf] at hc
        simp at hc
        simp [hc]
      · push_neg at hf
        rw [driverStep_token_buffer s data t now hf.1 (not_lt.mpr hf.2)] at hc
        simp at hc
    | toolStart name t =>
      by_cases h : name ≠ "" ∧ name ∉ s.seenTools
      · rw [driverStep_toolStart_fresh s name t now h.1 h.2] at hc
        split at hc <;> simp at hc <;> simp [hc]
      · rw [driverStep_toolStart_seen s name t now h] at hc
        split at hc <;> simp at hc <;> simp [hc]
    | error msg t =>
      rw [driverStep_error] at hc
      split at hc <;> simp at hc <;> simp [hc]
    | done t =>
      rw [driverStep_done] at hc
      split at hc <;> simp at hc <;> simp [hc]
  | timeout now =>
    by_cases h : s.tokenBuffer ≠ [] ∧ (now - s.lastTokenTime) * 1000 > TOKEN_BATCH_WINDOW_MS
    · rw [driverStep_timeout_flush s now h.1 h.2] at hc
      simp at hc
      simp [hc]
    · rw [driverStep_timeout_skip s now h] at hc
      simp at hc

/-- Every chunk the driver loop emits is a token chunk. -/
theorem driverRun_chunks_token (obs : List DriverObs) :
    ∀ (s : DriverState), ∀ c ∈ (driverRun s obs).1, c.type = "token" := by
  induction obs with
  | nil => intro s c hc; simp at hc
  | cons o rest ih =>
    intro s c hc
    rcases hstep : driverStep s o with ⟨out, sr⟩
    cases sr with
    | next s' =>
      rw [driverRun_cons_next rest hstep] at hc
      rcases List.mem_append.mp hc with h | h
      · exact driverStep_chunks_token s o c (by rw [hstep]; exact h)
      · exact ih s' c h
    | stop oc =>
      rw [driverRun_cons_stop rest hstep] at hc
      exact driverStep_chunks_token s o c (by rw [hstep]; exact hc)

/-- A driver iteration never continues past a terminal event. -/
theorem driverStep_terminal_stops (s : DriverState) (e : WorkerEvent) (now : Time)
    (h : e.isTerminal = true) :
    ∃ out oc, driverStep s (.ev e now) = (out, .stop oc) := by
  cases e with
  | token data t => simp [WorkerEvent.isTerminal] at h
  | toolStart name t => simp [WorkerEvent.isTerminal] at h
  | error msg t => exact ⟨_, _, driverStep_error s msg t now⟩
  | done t => exact ⟨_, _, driverStep_done s t now⟩

/-- A driver iteration that leaves the loop never reports `incomplete`. -/
theorem driverStep_stop_not_incomplete (s : DriverState) (o : DriverObs)
    (out : List StreamChunk) (oc : DriverOutcome)
    (h : driverStep s o = (out, .stop oc)) : oc ≠ .incomplete := by
  cases o with
  | ev e now =>
    cases e with
    | token data t =>
      by_cases hf : (s.tokenBuffer ++ [data]).length ≥ TOKEN_BATCH_MAX_SIZE ∨
          (now - t) * 1000 > TOKEN_BATCH_WINDOW_MS
      · rw [driverStep_token_flush s data t now hf] at h
        simp at h
      · push_neg at hf
        rw [driverStep_token_buffer s data t now hf.1 (not_lt.mpr hf.2)] at h
        simp at h
    | toolStart name t =>
      by_cases hfresh : name ≠ "" ∧ name ∉ s.seenTools
      · rw [driverStep_toolStart_fresh s name t now hfresh.1 hfresh.2] at h
        have : oc = .raised streamChunkValidationMsg := by
          have := congrArg Prod.snd h
          simpa using this.symm
        simp [this]
      · rw [driverStep_toolStart_seen s name t now hfresh] at h
        simp at h
    | error msg t =>
      rw [driverStep_error] at h
      have : oc = .raised msg := by
        have := congrArg Prod.snd h
        simpa using this.symm
      simp [this]
    | done t =>
      rw [driverStep_done] at h
      have : oc = .finished := by
        have := congrArg Prod.snd h
        simpa using this.symm
      simp [this]
  | timeout now =>
    by_cases hf : s.tokenBuffer ≠ [] ∧ (now - s.lastTokenTime) * 1000 > TOKEN_BATCH_WINDOW_MS
    · rw [driverStep_timeout_flush s now hf.1 hf.2] at h
      simp at h
    · rw [driverStep_timeout_skip s now hf] at h
      simp at h

/-- If the observations contain a terminal event, the driver loop ends. -/
theorem driverRun_not_incomplete (obs : List DriverObs) :
    ∀ (s : DriverState), hasTerminalObs obs = true →
      (driverRun s obs).2 ≠ .incomplete := by
  induction obs with
  | nil => intro s h; simp [hasTerminalObs] at h
  | cons o rest ih =>
    intro s h
    rcases hstep : driverStep s o with ⟨out, sr⟩
    cases sr with
    | next s' =>
      rw [driverRun_cons_next rest hstep]
      apply ih s'
      -- the head observation cannot be terminal: terminal events stop the loop
      rcases o with ⟨e, now⟩ | now
      · by_cases he : e.isTerminal = true
        · obtain ⟨out2, oc2, hstop⟩ := driverStep_terminal_stops s e now he
          rw [hstep] at hstop
          exact absurd (congrArg Prod.snd hstop) (by simp)
        · simp only [hasTerminalObs, List.any_cons] at h
          simp only [Bool.not_eq_true] at he
          simpa [hasTerminalObs, he] using h
      · simpa [hasTerminalObs] using h
    | stop oc =>
      rw [driverRun_cons_stop rest hstep]
      exact driverStep_stop_not_incomplete s o out oc hstep

theorem fragConcat_cons (o : DriverObs) (l : List DriverObs) :
    fragConcat (o :: l) = fragConcat [o] ++ fragConcat l := by
  rcases o with ⟨e, now⟩ | now
  · cases e <;>
      simp [fragConcat, concatAll, String.empty_append, String.append_empty,
        String.append_assoc]
  · simp [fragConcat, concatAll, String.empty_append]

theorem tokenConcat_flushed (buf : List String) :
    tokenConcat (if buf ≠ [] then [tokenFlushChunk buf] else []) = concatAll buf := by
  by_cases h : buf = []
  · simp [h]
  · simp [h, tokenConcat, tokenFlushChunk, String.append_empty]

/-- One clean iteration continues the loop, preserves the seen-tools set, and
preserves the concatenation invariant: emitted content plus pending buffer
equals previous pending buffer plus newly arrived fragment data. -/
theorem driverStep_clean (s : DriverState) (o : DriverObs) (h : cleanObs o = true) :
    ∃ out s', driverStep s o = (out, .next s')
      ∧ tokenConcat out ++ concatAll s'.tokenBuffer
          = concatAll s.tokenBuffer ++ fragConcat [o]
      ∧ s'.seenTools = s.seenTools := by
  rcases o with ⟨e, now⟩ | now
  · cases e with
    | token data t =>
      by_cases hf : (s.tokenBuffer ++ [data]).length ≥ TOKEN_BATCH_MAX_SIZE ∨
          (now - t) * 1000 > TOKEN_BATCH_WINDOW_MS
      · refine ⟨_, _, driverStep_token_flush s data t now hf, ?_, rfl⟩
        simp [tokenConcat, tokenFlushChunk, fragConcat, concatAll_append,
          String.append_empty]
      · push_neg at hf
        refine ⟨_, _, driverStep_token_buffer s data t now hf.1 (not_lt.mpr hf.2), ?_, rfl⟩
        simp [tokenConcat, fragConcat, concatAll_append, String.empty_append,
          String.append_empty]
    | toolStart name t => simp [cleanObs] at h
    | error msg t => simp [cleanObs] at h
    | done t => simp [cleanObs] at h
  · by_cases hf : s.tokenBuffer ≠ [] ∧ (now - s.lastTokenTime) * 1000 > TOKEN_BATCH_WINDOW_MS
    · refine ⟨_, _, driverStep_timeout_flush s now hf.1 hf.2, ?_, rfl⟩
      simp [tokenConcat, tokenFlushChunk, fragConcat, String.append_empty]
    · refine ⟨_, _, driverStep_timeout_skip s now hf, ?_, rfl⟩
      simp [tokenConcat, fragConcat, String.empty_append, String.append_empty]

/-- Running the driver over a clean prefix: the loop keeps running, the
seen-tools set is unchanged, and emitted content plus final pending buffer is
initial pending buffer plus the arrived fragment data, in order. -/
theorem driverRun_clean_front (pre : List DriverObs) :
    ∀ (s : DriverState) (rest : List DriverObs), (∀ o ∈ pre, cleanObs o = true) →
      ∃ out s',
        driverRun s (pre ++ rest) = (out ++ (driverRun s' rest).1, (driverRun s' rest).2)
        ∧ tokenConcat out ++ concatAll s'.tokenBuffer
            = concatAll s.tokenBuffer ++ fragConcat pre
        ∧ s'.seenTools = s.seenTools := by
  induction pre with
  | nil =>
    intro s rest _
    refine ⟨[], s, by simp, ?_, rfl⟩
    simp [fragConcat, String.empty_append, String.append_empty]
  | cons o pre ih =>
    intro s rest hclean
    obtain ⟨out0, s0, hstep, hconc0, hseen0⟩ :=
      driverStep_clean s o (hclean o (List.mem_cons_self o pre))
    obtain ⟨out1, s', hrun, hconc1, hseen1⟩ :=
      ih s0 rest fun x hx => hclean x (List.mem_cons_of_mem o hx)
    refine ⟨out0 ++ out1, s', ?_, ?_, hseen1.trans hseen0⟩
    · rw [List.cons_append, driverRun_cons_next (pre ++ rest) hstep, hrun]
      simp [List.append_assoc]
    · calc tokenConcat (out0 ++ out1) ++ concatAll s'.tokenBuffer
          = (tokenConcat out0 ++ tokenConcat out1) ++ concatAll s'.tokenBuffer := by
            rw [tokenConcat_append]
        _ = tokenConcat out0 ++ (tokenConcat out1 ++ concatAll s'.tokenBuffer) :=
            String.append_assoc _ _ _
        _ = tokenConcat out0 ++ (concatAll s0.tokenBuffer ++ fragConcat pre) := by
            rw [hconc1]
        _ = (tokenConcat out0 ++ concatAll s0.tokenBuffer) ++ fragConcat pre :=
            (String.append_assoc _ _ _).symm
        _ = (concatAll s.tokenBuffer ++ fragConcat [o]) ++ fragConcat pre := by
            rw [hconc0]
        _ = concatAll s.tokenBuffer ++ (fragConcat [o] ++ fragConcat pre) :=
            String.append_assoc _ _ _
        _ = concatAll s.tokenBuffer ++ fragConcat (o :: pre) := by
            rw [fragConcat_cons o pre]

@[simp]
theorem errorChunk_type (msg : String) : (errorChunk msg).type = "error" := rfl

@[simp]
theorem completeChunk_type : completeChunk.type = "complete" := rfl

@[simp]
theorem errorChunk_isTerminal (msg : String) : (errorChunk msg).isTerminal = true := rfl

@[simp]
theorem completeChunk_isTerminal : completeChunk.isTerminal = true := rfl

theorem token_not_terminal {c : StreamChunk} (h : c.type = "token") :
    c.isTerminal = false := by
  simp [StreamChunk.isTerminal, h]

/-- Shape of the full wire sequence: some token chunks followed by exactly one
terminal chunk, which is `complete` only when the driver loop broke normally
on a `done` event. -/
theorem streamChat_shape (pre save : Except String Unit) (obs : List DriverObs)
    (h : hasTerminalObs obs = true) :
    ∃ front last, stream_chat_response pre save obs = front ++ [last]
      ∧ (∀ c ∈ front, c.type = "token")
      ∧ last.isTerminal = true
      ∧ (last.type = "complete" → (stream_from_agent obs).2 = .finished) := by
  cases pre with
  | error e =>
    refine ⟨[], errorChunk e, rfl, by simp, by simp, ?_⟩
    intro hc
    simp at hc
  | ok u =>
    rcases hsa : stream_from_agent obs with ⟨chunks, oc⟩
    have hchunks : ∀ c ∈ chunks, c.type = "token" := by
      intro c hc
      have := driverRun_chunks_token obs initialDriverState c
      rw [show (driverRun initialDriverState obs) = (chunks, oc) from hsa] at this
      exact this hc
    cases oc with
    | incomplete =>
      exfalso
      have := driverRun_not_incomplete obs initialDriverState h
      rw [show (driverRun initialDriverState obs) = (chunks, .incomplete) from hsa] at this
      exact this rfl
    | finished =>
      by_cases hr : hasResponseContent chunks = true
      · cases save with
        | ok v =>
          refine ⟨chunks, completeChunk, ?_, hchunks, by simp, fun _ => by simp [hsa]⟩
          simp [stream_chat_response, hsa, hr]
        | error e =>
          refine ⟨chunks, errorChunk e, ?_, hchunks, by simp, fun _ => by simp [hsa]⟩
          simp [stream_chat_response, hsa, hr]
      · refine ⟨chunks, completeChunk, ?_, hchunks, by simp, fun _ => by simp [hsa]⟩
        simp only [stream_chat_response, hsa]
        rw [if_neg hr]
    | raised m =>
      refine ⟨chunks, errorChunk m, ?_, hchunks, by simp, ?_⟩
      · simp [stream_chat_response, hsa]
      · intro hc
        simp at hc

/-! ## Claims -/

/-- **C1**: for every streamed chat request, the emitted wire-chunk sequence
contains exactly one terminal chunk (`complete` or `error`), it is the last
chunk of the stream, and a `complete` chunk is present only when the driver
event loop terminated normally (so never alongside or after an `error`
chunk).  The hypothesis is the worker guarantee (claim C5) that the event
trace contains a terminal event. -/
theorem stream_terminal_chunk_unique (pre save : Except String Unit) (obs : List DriverObs)
    (h : hasTerminalObs obs = true) :
    ((stream_chat_response pre save obs).countP fun c => c.isTerminal) = 1
    ∧ (∃ c, (stream_chat_response pre save obs).getLast? = some c ∧ c.isTerminal = true)
    ∧ (((stream_chat_response pre save obs).any fun c => c.type == "complete") = true →
        (stream_from_agent obs).2 = .finished) := by
  obtain ⟨front, last, heq, hfront, hterm, hcomp⟩ := streamChat_shape pre save obs h
  rw [heq]
  refine ⟨?_, ⟨last, List.getLast?_concat front, hterm⟩, ?_⟩
  · rw [List.countP_append]
    have h0 : front.countP (fun c => c.isTerminal) = 0 :=
      List.countP_eq_zero.mpr (by intro c hc; simp [token_not_terminal (hfront c hc)])
    simp [h0, hterm]
  · intro hany
    rw [List.any_append] at hany
    rcases (by simpa using hany : (front.any fun c => c.type == "complete") = true
        ∨ (last.type == "complete") = true) with hfa | hla
    · obtain ⟨c, hc, hcty⟩ := List.any_eq_true.mp hfa
      rw [hfront c hc] at hcty
      simp at hcty
    · exact hcomp (eq_of_beq hla)

/-- Closed witness for C1 at a concrete trace. -/
theorem stream_terminal_chunk_unique_witness :
    ((stream_chat_response (.ok ()) (.ok ())
        [DriverObs.ev (.done 0) 0]).countP fun c => c.isTerminal) = 1
    ∧ (∃ c, (stream_chat_response (.ok ()) (.ok ())
        [DriverObs.ev (.done 0) 0]).getLast? = some c ∧ c.isTerminal = true)
    ∧ (((stream_chat_response (.ok ()) (.ok ())
        [DriverObs.ev (.done 0) 0]).any fun c => c.type == "complete") = true →
        (stream_from_agent [DriverObs.ev (.done 0) 0]).2 = .finished) :=
  stream_terminal_chunk_unique (.ok ()) (.ok ()) [DriverObs.ev (.done 0) 0] (by decide)

/-- **C2**: on any non-token event (`tool_start`, `error`, `done`), and on a
poll timeout while a non-empty buffer has aged past the 10 ms window, the
buffered fragments are flushed as one token chunk before the triggering event
is processed (first four conjuncts); consequently no token chunk is emitted
after the terminal chunk (fifth conjunct: the wire sequence is token chunks
followed by one final terminal chunk), and at any boundary the emitted token
content is exactly the arrived fragment data in order (sixth conjunct). -/
theorem flush_before_boundary :
    (∀ (s : DriverState) (name : String) (t now : Time), s.tokenBuffer ≠ [] →
      ∃ rest, (driverStep s (.ev (.toolStart name t) now)).1
        = tokenFlushChunk s.tokenBuffer :: rest)
    ∧ (∀ (s : DriverState) (msg : String) (t now : Time), s.tokenBuffer ≠ [] →
      driverStep s (.ev (.error msg t) now)
        = ([tokenFlushChunk s.tokenBuffer], .stop (.raised msg)))
    ∧ (∀ (s : DriverState) (t now : Time), s.tokenBuffer ≠ [] →
      driverStep s (.ev (.done t) now)
        = ([tokenFlushChunk s.tokenBuffer], .stop .finished))
    ∧ (∀ (s : DriverState) (now : Time), s.tokenBuffer ≠ [] →
      (now - s.lastTokenTime) * 1000 > TOKEN_BATCH_WINDOW_MS →
      driverStep s (.timeout now)
        = ([tokenFlushChunk s.tokenBuffer], .next ⟨[], s.lastTokenTime, s.seenTools⟩))
    ∧ (∀ (pre save : Except String Unit) (obs : List DriverObs), hasTerminalObs obs = true →
      ∃ front last, stream_chat_response pre save obs = front ++ [last]
        ∧ last.isTerminal = true ∧ ∀ c ∈ front, c.type = "token")
    ∧ (∀ (pre : List DriverObs) (b : DriverObs) (post : List DriverObs),
      (∀ o ∈ pre, cleanObs o = true) → boundaryStops b = true →
      tokenConcat (stream_from_agent (pre ++ b :: post)).1 = fragConcat pre) := by
  refine ⟨?_, ?_, ?_, ?_, ?_, ?_⟩
  · intro s name t now hbuf
    by_cases hf : name ≠ "" ∧ name ∉ s.seenTools
    · rw [driverStep_toolStart_fresh s name t now hf.1 hf.2]
      exact ⟨[], by simp [hbuf]⟩
    · rw [driverStep_toolStart_seen s name t now hf]
      exact ⟨[], by simp [hbuf]⟩
  · intro s msg t now hbuf
    rw [driverStep_error]
    simp [hbuf]
  · intro s t now hbuf
    rw [driverStep_done]
    simp [hbuf]
  · intro s now hbuf ht
    exact driverStep_timeout_flush s now hbuf ht
  · intro pre save obs h
    obtain ⟨front, last, heq, hfront, hterm, _⟩ := streamChat_shape pre save obs h
    exact ⟨front, last, heq, hterm, hfront⟩
  · intro pre b post hclean hb
    obtain ⟨out, s', hrun, hconc, hseen⟩ :=
      driverRun_clean_front pre initialDriverState (b :: post) hclean
    have hstop : ∃ oc, driverStep s' b
        = ((if s'.tokenBuffer ≠ [] then [tokenFlushChunk s'.tokenBuffer] else []),
           .stop oc) := by
      rcases b with ⟨e, now⟩ | now
      · cases e with
        | token data t => simp [boundaryStops] at hb
        | toolStart name t =>
          have hn : name ≠ "" := by simpa [boundaryStops] using hb
          have hns : name ∉ s'.seenTools := by rw [hseen]; simp [initialDriverState]
          exact ⟨_, driverStep_toolStart_fresh s' name t now hn hns⟩
        | error msg t => exact ⟨_, driverStep_error s' msg t now⟩
        | done t => exact ⟨_, driverStep_done s' t now⟩
      · simp [boundaryStops] at hb
    obtain ⟨oc, hstep⟩ := hstop
    have hfull : stream_from_agent (pre ++ b :: post)
        = (out ++ (if s'.tokenBuffer ≠ [] then [tokenFlushChunk s'.tokenBuffer] else []),
           oc) := by
      unfold stream_from_agent
      rw [hrun, driverRun_cons_stop post hstep]
    rw [hfull]
    show tokenConcat (out ++ _) = fragConcat pre
    rw [tokenConcat_append, tokenConcat_flushed, hconc]
    simp [initialDriverState, String.empty_append]

/-- Closed witness for C2 at concrete states and traces. -/
theorem flush_before_boundary_witness :
    (∃ rest, (driverStep ⟨["a"], 0, []⟩ (.ev (.toolStart "calc" 1) 1)).1
      = tokenFlushChunk ["a"] :: rest)
    ∧ driverStep ⟨["a"], 0, []⟩ (.ev (.error "boom" 1) 1)
      = ([tokenFlushChunk ["a"]], .stop (.raised "boom"))
    ∧ driverStep ⟨["a"], 0, []⟩ (.ev (.done 1) 1)
      = ([tokenFlushChunk ["a"]], .stop .finished)
    ∧ driverStep ⟨["a"], 0, []⟩ (.timeout 1)
      = ([tokenFlushChunk ["a"]], .next ⟨[], 0, []⟩)
    ∧ (∃ front last, stream_chat_response (.ok ()) (.ok ()) [DriverObs.ev (.done 0) 0]
        = front ++ [last] ∧ last.isTerminal = true ∧ ∀ c ∈ front, c.type = "token")
    ∧ tokenConcat (stream_from_agent
        ([DriverObs.ev (.token "x" 0) 0] ++ DriverObs.ev (.done 1) 1 :: [])).1
      = fragConcat [DriverObs.ev (.token "x" 0) 0] :=
  ⟨flush_before_boundary.1 ⟨["a"], 0, []⟩ "calc" 1 1 (by simp),
   flush_before_boundary.2.1 ⟨["a"], 0, []⟩ "boom" 1 1 (by simp),
   flush_before_boundary.2.2.1 ⟨["a"], 0, []⟩ 1 1 (by simp),
   flush_before_boundary.2.2.2.1 ⟨["a"], 0, []⟩ 1 (by simp) (by norm_num [TOKEN_BATCH_WINDOW_MS]),
   flush_before_boundary.2.2.2.2.1 (.ok ()) (.ok ()) [DriverObs.ev (.done 0) 0] (by decide),
   flush_before_boundary.2.2.2.2.2 [DriverObs.ev (.token "x" 0) 0]
     (DriverObs.ev (.done 1) 1) [] (by decide) (by decide)⟩

theorem tokenConcat_cons_flush (buf : List String) (l : List StreamChunk) :
    tokenConcat (tokenFlushChunk buf :: l) = concatAll buf ++ tokenConcat l := by
  simp [tokenConcat, tokenFlushChunk]

/-- Batching of a run of fast tokens ended by `done`, from any loop state with
a non-full buffer: the loop finishes, emits one token chunk per full batch of
`TOKEN_BATCH_MAX_SIZE` fragments plus one for the remainder, and the emitted
content is buffer plus fragments in arrival order. -/
theorem tokenBatchRun (frags : List (String × Time × Time)) :
    ∀ (s : DriverState), s.tokenBuffer.length < TOKEN_BATCH_MAX_SIZE →
    (∀ f ∈ frags, (f.2.2 - f.2.1) * 1000 ≤ TOKEN_BATCH_WINDOW_MS) →
    ∀ (tEnd nowEnd : Time),
    ∃ out, driverRun s ((frags.map fun f => DriverObs.ev (.token f.1 f.2.1) f.2.2)
        ++ [DriverObs.ev (.done tEnd) nowEnd]) = (out, .finished)
      ∧ (out.countP fun c => c.type == "token")
          = (s.tokenBuffer.length + frags.length + 4) / 5
      ∧ tokenConcat out = concatAll s.tokenBuffer ++ concatAll (frags.map fun f => f.1) := by
  induction frags with
  | nil =>
    intro s hb _ tEnd nowEnd
    rw [List.map_nil, List.nil_append]
    refine ⟨_, driverRun_cons_stop [] (driverStep_done s tEnd nowEnd), ?_, ?_⟩
    · by_cases h : s.tokenBuffer = []
      · simp [h]
      · have hlen : s.tokenBuffer.length ≠ 0 := by simpa using h
        simp only [TOKEN_BATCH_MAX_SIZE] at hb
        simp [h, tokenFlushChunk]
        omega
    · rw [tokenConcat_flushed]
      simp [String.append_empty]
  | cons f rest ih =>
    intro s hb hfast tEnd nowEnd
    have hfastf : (f.2.2 - f.2.1) * 1000 ≤ TOKEN_BATCH_WINDOW_MS :=
      hfast f (List.mem_cons_self f rest)
    have hfastrest : ∀ x ∈ rest, (x.2.2 - x.2.1) * 1000 ≤ TOKEN_BATCH_WINDOW_MS :=
      fun x hx => hfast x (List.mem_cons_of_mem f hx)
    simp only [TOKEN_BATCH_MAX_SIZE] at hb
    rw [List.map_cons, List.cons_append]
    by_cases h4 : s.tokenBuffer.length + 1 ≥ TOKEN_BATCH_MAX_SIZE
    · -- the buffer fills up: flush now, continue with an empty buffer
      have hstep := driverStep_token_flush s f.1 f.2.1 f.2.2 (Or.inl (by simpa using h4))
      rw [driverRun_cons_next _ hstep]
      obtain ⟨out, hrun, hcount, hconc⟩ :=
        ih ⟨[], f.2.1, s.seenTools⟩ (by simp [TOKEN_BATCH_MAX_SIZE]) hfastrest tEnd nowEnd
      simp only [TOKEN_BATCH_MAX_SIZE] at h4
      refine ⟨tokenFlushChunk (s.tokenBuffer ++ [f.1]) :: out, ?_, ?_, ?_⟩
      · rw [hrun]
        simp
      · have hcount2 : (out.countP fun c => c.type == "token") = (rest.length + 4) / 5 := by
          simpa using hcount
        simp only [List.countP_cons, hcount2, tokenFlushChunk_type]
        simp
        omega
      · rw [tokenConcat_cons_flush, hconc]
        simp [concatAll_append, String.append_assoc, String.empty_append,
          String.append_empty]
    · -- the fragment is buffered
      push_neg at h4
      have hstep := driverStep_token_buffer s f.1 f.2.1 f.2.2 (by simpa using h4)
        (not_lt.mpr hfastf)
      rw [driverRun_cons_next _ hstep]
      obtain ⟨out, hrun, hcount, hconc⟩ :=
        ih ⟨s.tokenBuffer ++ [f.1], f.2.1, s.seenTools⟩ (by simpa using h4)
          hfastrest tEnd nowEnd
      refine ⟨out, ?_, ?_, ?_⟩
      · rw [hrun]
        simp
      · have hcount2 : (out.countP fun c => c.type == "token")
            = (s.tokenBuffer.length + 1 + rest.length + 4) / 5 := by
          simpa using hcount
        rw [hcount2]
        simp only [List.length_cons]
        omega
      · rw [hconc]
        simp [concatAll_append, String.append_assoc]

/-- **C3**: for `N` token fragments all processed within the 10 ms batch
window and followed by a terminal `done` event, `_stream_from_agent` emits
exactly `⌈N / 5⌉` token chunks (`(N + 4) / 5` in natural division), and the
concatenation of their contents equals the concatenation of the fragments in
arrival order. -/
theorem token_batching (frags : List (String × Time × Time)) (tEnd nowEnd : Time)
    (hfast : ∀ f ∈ frags, (f.2.2 - f.2.1) * 1000 ≤ TOKEN_BATCH_WINDOW_MS) :
    (stream_from_agent ((frags.map fun f => DriverObs.ev (.token f.1 f.2.1) f.2.2)
        ++ [DriverObs.ev (.done tEnd) nowEnd])).2 = .finished
    ∧ ((stream_from_agent ((frags.map fun f => DriverObs.ev (.token f.1 f.2.1) f.2.2)
        ++ [DriverObs.ev (.done tEnd) nowEnd])).1.countP fun c => c.type == "token")
        = (frags.length + 4) / 5
    ∧ tokenConcat (stream_from_agent ((frags.map fun f =>
        DriverObs.ev (.token f.1 f.2.1) f.2.2)
        ++ [DriverObs.ev (.done tEnd) nowEnd])).1
        = concatAll (frags.map fun f => f.1) := by
  obtain ⟨out, hrun, hcount, hconc⟩ := tokenBatchRun frags initialDriverState
    (by simp [initialDriverState, TOKEN_BATCH_MAX_SIZE]) hfast tEnd nowEnd
  unfold stream_from_agent
  rw [hrun]
  refine ⟨rfl, ?_, ?_⟩
  · simpa [initialDriverState] using hcount
  · simpa [initialDriverState, String.empty_append] using hconc

/-- Closed witness for C3: seven fast fragments then `done` produce two token
chunks concatenating to the full text. -/
theorem token_batching_witness :
    (stream_from_agent ((sevenFrags.map fun f => DriverObs.ev (.token f.1 f.2.1) f.2.2)
        ++ [DriverObs.ev (.done 1) 1])).2 = .finished
    ∧ ((stream_from_agent ((sevenFrags.map fun f =>
        DriverObs.ev (.token f.1 f.2.1) f.2.2)
        ++ [DriverObs.ev (.done 1) 1])).1.countP fun c => c.type == "token")
        = (sevenFrags.length + 4) / 5
    ∧ tokenConcat (stream_from_agent ((sevenFrags.map fun f =>
        DriverObs.ev (.token f.1 f.2.1) f.2.2)
        ++ [DriverObs.ev (.done 1) 1])).1
        = concatAll (sevenFrags.map fun f => f.1) :=
  token_batching sevenFrags 1 1 (by
    intro f hf
    fin_cases hf <;> norm_num [TOKEN_BATCH_WINDOW_MS])

/-- Every chunk the full wire stream can carry is token, complete or error. -/
theorem stream_chat_chunk_types (pre save : Except String Unit) (obs : List DriverObs) :
    ∀ c ∈ stream_chat_response pre save obs,
      c.type = "token" ∨ c.type = "complete" ∨ c.type = "error" := by
  intro c hc
  cases pre with
  | error e =>
    simp [stream_chat_response] at hc
    simp [hc]
  | ok u =>
    rcases hsa : stream_from_agent obs with ⟨chunks, oc⟩
    have hchunks : ∀ x ∈ chunks, x.type = "token" := by
      intro x hx
      have := driverRun_chunks_token obs initialDriverState x
      rw [show (driverRun initialDriverState obs) = (chunks, oc) from hsa] at this
      exact this hx
    cases oc with
    | incomplete =>
      simp only [stream_chat_response, hsa] at hc
      exact Or.inl (hchunks c hc)
    | finished =>
      by_cases hr : hasResponseContent chunks = true
      · cases save with
        | ok v =>
          simp only [stream_chat_response, hsa, hr, if_pos] at hc
          rcases List.mem_append.mp hc with h | h
          · exact Or.inl (hchunks c h)
          · simp at h
            simp [h]
        | error e =>
          simp only [stream_chat_response, hsa, hr, if_pos] at hc
          rcases List.mem_append.mp hc with h | h
          · exact Or.inl (hchunks c h)
          · simp at h
            simp [h]
      · simp only [stream_chat_response, hsa] at hc
        rw [if_neg hr] at hc
        rcases List.mem_append.mp hc with h | h
        · exact Or.inl (hchunks c h)
        · simp at h
          simp [h]
    | raised m =>
      simp only [stream_chat_response, hsa] at hc
      rcases List.mem_append.mp hc with h | h
      · exact Or.inl (hchunks c h)
      · simp at h
        simp [h]

/-- **C4** (code bug): a fresh tool name never yields a `tool_start` wire
chunk.  `models.StreamChunk` only admits `type` values
`token | tool_call | complete | error` and has no `tool_name` field, so the
`StreamChunk(type="tool_start", tool_name=...)` construction of
`chat_service.py` lines 339-343 raises a pydantic `ValidationError`: on the
failing input (one `tool_start` event for `"calculator"`, then `done`) the
driver emits nothing and the generator aborts with the validation error
(first conjunct), and no wire sequence ever contains a `tool_start` chunk
(second conjunct). -/
theorem tool_start_chunk_impossible :
    stream_from_agent [DriverObs.ev (.toolStart "calculator" 0) 0,
        DriverObs.ev (.done 1) 1]
      = ([], .raised streamChunkValidationMsg)
    ∧ (∀ (pre save : Except String Unit) (obs : List DriverObs),
        (stream_chat_response pre save obs).all (fun c => c.type != "tool_start")
          = true) := by
  constructor
  · unfold stream_from_agent
    rw [driverRun_cons_stop _ (driverStep_toolStart_fresh initialDriverState
      "calculator" 0 0 (by decide) (by simp [initialDriverState]))]
    simp [initialDriverState]
  · intro pre save obs
    rw [List.all_eq_true]
    intro c hc
    rcases stream_chat_chunk_types pre save obs c hc with h | h | h <;>
      simp [h]

/-- **C5**: `run_agent` always pushes exactly one terminal event, it is the
last event pushed, it is `done` exactly when the agent call returned normally
and `error` carrying the failure description exactly when it raised, and no
event produced by the streaming callback (partial tokens, tool notifications)
is terminal. -/
theorem run_agent_terminal_event (calls : List CallbackInvocation)
    (result : Except String Unit) (tEnd : Time) :
    ((run_agent_events calls result tEnd).filter fun e => e.isTerminal)
      = [terminalEventOf result tEnd]
    ∧ (run_agent_events calls result tEnd).getLast? = some (terminalEventOf result tEnd)
    ∧ (calls.flatMap callbackEvents).all (fun e => !e.isTerminal) = true := by
  have hcb : ∀ e ∈ calls.flatMap callbackEvents, e.isTerminal = false := by
    intro e he
    obtain ⟨c, _, hec⟩ := List.mem_flatMap.mp he
    unfold callbackEvents at hec
    rcases List.mem_append.mp hec with h | h
    · split at h <;> simp at h
      simp [h, WorkerEvent.isTerminal]
    · split at h <;> simp at h
      simp [h, WorkerEvent.isTerminal]
  have hterm : (terminalEventOf result tEnd).isTerminal = true := by
    cases result <;> simp [terminalEventOf, WorkerEvent.isTerminal]
  have hrw : run_agent_events calls result tEnd
      = calls.flatMap callbackEvents ++ [terminalEventOf result tEnd] := by
    cases result <;> rfl
  refine ⟨?_, ?_, ?_⟩
  · rw [hrw, List.filter_append]
    rw [List.filter_eq_nil_iff.mpr (by intro e he; simp [hcb e he])]
    simp [hterm]
  · rw [hrw]
    exact List.getLast?_concat _
  · rw [List.all_eq_true]
    intro e he
    simp [hcb e he]

/-- **C6**: when the history exceeds `PRESERVE_RECENT_MESSAGES` (10),
`_summarize_context` returns the synthetic summary message followed by the
last 10 input messages verbatim — so the result has exactly 11 entries, its
tail is the input's last 10 turns unchanged (in particular identical ids and
contents), and its head carries `metadata.is_summary = true`; a history of at
most 10 messages is returned unchanged. -/
theorem summarize_preserves_recent (msgs : List Message) :
    (PRESERVE_RECENT_MESSAGES < msgs.length →
      summarize_context msgs
        = summaryMessage (msgs.take (msgs.length - PRESERVE_RECENT_MESSAGES))
            :: msgs.drop (msgs.length - PRESERVE_RECENT_MESSAGES)
      ∧ (summarize_context msgs).length = PRESERVE_RECENT_MESSAGES + 1
      ∧ (summarize_context msgs).drop 1
          = msgs.drop (msgs.length - PRESERVE_RECENT_MESSAGES)
      ∧ ∀ m, (summarize_context msgs).head? = some m →
          m.metadata = some { is_summary := true, toolCalls := none })
    ∧ (msgs.length ≤ PRESERVE_RECENT_MESSAGES → summarize_context msgs = msgs) := by
  constructor
  · intro h
    have hn : ¬ msgs.length ≤ PRESERVE_RECENT_MESSAGES := not_le.mpr h
    have heq : summarize_context msgs
        = summaryMessage (msgs.take (msgs.length - PRESERVE_RECENT_MESSAGES))
            :: msgs.drop (msgs.length - PRESERVE_RECENT_MESSAGES) := by
      simp [summarize_context, hn]
    refine ⟨heq, ?_, ?_, ?_⟩
    · rw [heq]
      simp only [List.length_cons, List.length_drop]
      simp only [PRESERVE_RECENT_MESSAGES] at h ⊢
      omega
    · rw [heq]
      simp
    · intro m hm
      rw [heq] at hm
      simp at hm
      rw [← hm]
      rfl
  · intro h
    simp [summarize_context, h]

/-- Closed witness for C6: twenty turns summarize to 11 entries; five turns
are kept unchanged. -/
theorem summarize_preserves_recent_witness :
    (summarize_context twentyMsgs).length = PRESERVE_RECENT_MESSAGES + 1
    ∧ summarize_context fiveMsgs = fiveMsgs :=
  ⟨((summarize_preserves_recent twentyMsgs).1 (by decide)).2.1,
   (summarize_preserves_recent fiveMsgs).2 (by decide)⟩

/-- **C7**: `_exceeds_token_limit` is false on an empty history and otherwise
holds exactly when `(total_content_chars // 4) * 1.2`, truncated to an
integer (embedded exactly as `(n * 6) / 5` in natural division), exceeds the
configured model token limit; and `build_context` leaves the history
untouched (no summarization) exactly when the predicate is false. -/
theorem token_limit_decision (limit : Nat) :
    exceeds_token_limit limit [] = false
    ∧ (∀ msgs : List Message, msgs ≠ [] →
        (exceeds_token_limit limit msgs = true ↔
          ((msgs.map fun m => m.content.length).sum / 4) * 6 / 5 > limit))
    ∧ (∀ (loadResult : Except String (List Message)) (req : ChatRequest) (p : Bool),
        exceeds_token_limit limit (effectiveHistory loadResult req) = false →
        build_context limit loadResult req p
          = renderContext p req.user_id (effectiveHistory loadResult req))
    ∧ (∀ (loadResult : Except String (List Message)) (req : ChatRequest) (p : Bool),
        exceeds_token_limit limit (effectiveHistory loadResult req) = true →
        build_context limit loadResult req p
          = renderContext p req.user_id
              (summarize_context (effectiveHistory loadResult req))) := by
  refine ⟨rfl, ?_, ?_, ?_⟩
  · intro msgs h
    simp [exceeds_token_limit, h, estimated_tokens, CHARS_PER_TOKEN]
  · intro loadResult req p h
    simp [build_context, contextHistory, h]
  · intro loadResult req p h
    simp [build_context, contextHistory, h]

/-- Closed witness for C7 at a five-turn history below the limit. -/
theorem token_limit_decision_witness :
    (exceeds_token_limit 200000 fiveMsgs = true ↔
      ((fiveMsgs.map fun m => m.content.length).sum / 4) * 6 / 5 > 200000)
    ∧ build_context 200000 (.ok []) chatReqFive false
        = renderContext false chatReqFive.user_id (effectiveHistory (.ok []) chatReqFive)
    ∧ build_context 1 (.ok []) chatReqFive false
        = renderContext false chatReqFive.user_id
            (summarize_context (effectiveHistory (.ok []) chatReqFive)) :=
  ⟨(token_limit_decision 200000).2.1 fiveMsgs (by decide),
   (token_limit_decision 200000).2.2.1 (.ok []) chatReqFive false (by decide),
   (token_limit_decision 1).2.2.2 (.ok []) chatReqFive false (by decide)⟩

theorem profile_ne_empty (uid : String) :
    ("User ID: " ++ uid ++ "\nBusiness Type: Painting Contractor") ≠ "" := by
  intro h
  have hlen := congrArg String.length h
  rw [String.length_append, String.length_append] at hlen
  rw [show ("User ID: " : String).length = 9 from rfl] at hlen
  rw [show ("" : String).length = 0 from rfl] at hlen
  omega

/-- **C8** (counterexample): when loading the history fails, `build_context`
does not return the empty string — the failure is caught inside
`_load_conversation_history` (which falls back to an empty history), so the
built context still contains the user-profile preamble. -/
theorem build_context_load_failure_counterexample :
    build_context 200000 (.error "connection refused") emptyHistReq true
      = "User ID: u1\nBusiness Type: Painting Contractor"
    ∧ build_context 200000 (.error "connection refused") emptyHistReq true ≠ "" := by
  refine ⟨by decide, ?_⟩
  intro h
  rw [show build_context 200000 (.error "connection refused") emptyHistReq true
    = "User ID: u1\nBusiness Type: Painting Contractor" from by decide] at h
  exact absurd h (by decide)

/-- **C8** (amended): a history-load failure never propagates out of
`build_context` and never aborts the request: the failure is swallowed and
the context is built from an empty history, yielding the user-profile
preamble alone — and the empty string exactly when the profile is omitted. -/
theorem build_context_load_failure_degrades (limit : Nat) (e msg cid uid : String) :
    build_context limit (.error e) ⟨msg, cid, uid, []⟩ true
      = "User ID: " ++ uid ++ "\nBusiness Type: Painting Contractor"
    ∧ build_context limit (.error e) ⟨msg, cid, uid, []⟩ false = "" := by
  have heff : effectiveHistory (.error e) ⟨msg, cid, uid, []⟩ = [] := by
    by_cases hcid : cid = "" <;>
      simp [effectiveHistory, load_conversation_history, hcid]
  constructor
  · unfold build_context contextHistory
    rw [heff]
    simp [exceeds_token_limit, renderContext, get_user_profile,
      profile_ne_empty uid, joinWith]
  · unfold build_context contextHistory
    rw [heff]
    simp [exceeds_token_limit, renderContext, joinWith]

/-- **C9**: for a five-turn history (with `PRESERVE_RECENT_MESSAGES = 10`,
so no summarization can replace anything), `build_context` renders
`"Previous conversation:"` followed by one `"<Role>: <content>"` line per
turn, joined by newlines, with no summary line (the optional user-profile
preamble is omitted here). -/
theorem build_context_five_short_turns (limit : Nat)
    (loadResult : Except String (List Message)) (message cid uid : String)
    (msgs : List Message) (h : msgs.length = 5) :
    build_context limit loadResult ⟨message, cid, uid, msgs⟩ false
      = joinWith "\n" ("Previous conversation:"
          :: msgs.map fun m => roleLabel m.role ++ ": " ++ m.content) := by
  have hne : msgs ≠ [] := by
    intro hh
    rw [hh] at h
    simp at h
  have heff : effectiveHistory loadResult ⟨message, cid, uid, msgs⟩ = msgs := by
    simp [effectiveHistory, hne]
  have hle : msgs.length ≤ PRESERVE_RECENT_MESSAGES := by
    rw [h]
    decide
  have hsum : summarize_context msgs = msgs := by
    simp [summarize_context, hle]
  unfold build_context contextHistory
  rw [heff]
  by_cases hex : exceeds_token_limit limit msgs
  · rw [if_pos hex, hsum]
    simp [renderContext, hne]
  · rw [if_neg hex]
    simp [renderContext, hne]

/-- Closed witness for C9 at five concrete turns. -/
theorem build_context_five_short_turns_witness :
    build_context 200000 (.ok []) ⟨"hi", "c1", "u1", fiveMsgs⟩ false
      = joinWith "\n" ("Previous conversation:"
          :: fiveMsgs.map fun m => roleLabel m.role ++ ": " ++ m.content) :=
  build_context_five_short_turns 200000 (.ok []) "hi" "c1" "u1" fiveMsgs (by decide)

/-- **C10** (code bug): `ContextManager.save_message` itself swallows any
persistence failure and returns `None` (second conjunct) — but the call in
`stream_chat_response` passes the keyword arguments `user_id` and `jwt_token`,
which the method does not declare (first conjunct), so Python raises
`TypeError` at the call site, before the method's `try` can run, and the
streaming request is aborted onto the error path. -/
theorem save_message_call_mismatch :
    saveMessageUnexpectedKeywords = ["user_id", "jwt_token"]
    ∧ (∀ r : Except String Message, save_message r = r.toOption) := by
  refine ⟨by decide, ?_⟩
  intro r
  cases r <;> rfl

end StrandsBridge
